import Mathlib

/-!
Verification of the `nlu-comment-ranker/scraper` crawl-and-persist pipeline
(`src/scraper.py`, `src/commentDB.py`) against its specification.

The Python program is embedded shallowly:
* remote API records (comments, submissions, historical posts) become plain
  Lean structures / inductives;
* the SQLAlchemy session becomes an explicit `Store` of row lists, and
  `add_model` becomes a pure function on it (with the success of the
  underlying `session.add`/`session.commit` an explicit boolean, since a
  database error is external nondeterminism);
* the loader loops (`load_comments`, `load_subreddit`, the per-user
  activity loop of `load_users`) become structural recursions threading a
  crawl state that additionally records every model handed to the
  persistence layer and every submission whose comment tree was expanded;
* Python machine integers become `Nat`/`Int`; the float averages of
  `_build_summary_stats` are embedded as exact rationals (the program only
  divides small integer totals).
-/

namespace Scraper

/-! ## Comment trees (`c.replies`, `_max_tree_depth`) -/

/-- A comment as delivered by the remote API, restricted to the fields the
scraper reads: `c.fullname` (stable identifier), `c.body` (raw text),
`c.author` (`none` for a deleted account, `get_author_name` in
`src/commentDB.py`), and the immediate replies `c.replies`. -/
inductive PComment where
  | mk (com_id : String) (body : String) (author : Option String)
      (replies : List PComment)

def PComment.com_id : PComment → String
  | .mk i _ _ _ => i

def PComment.body : PComment → String
  | .mk _ b _ _ => b

def PComment.author : PComment → Option String
  | .mk _ _ a _ => a

def PComment.replies : PComment → List PComment
  | .mk _ _ _ r => r

mutual

/-- Embedding of `_max_tree_depth` (src/scraper.py:80-83): `1` when
`comment.replies` is empty, else
`1 + max(_max_tree_depth(reply) for reply in replies)`. -/
def max_tree_depth : PComment → Nat
  | .mk _ _ _ replies =>
    match replies with
    | [] => 1
    | r :: rs => 1 + replies_max_depth (r :: rs)

/-- Python's `max(...)` over the depths of a reply list, as a fold
(`Nat.max` has neutral element `0`, so on a nonempty list this is the
maximum of the member depths, exactly what `max` computes). -/
def replies_max_depth : List PComment → Nat
  | [] => 0
  | r :: rs => Nat.max (max_tree_depth r) (replies_max_depth rs)

end

/-! ## User history statistics (`user_stats`, `_build_summary_stats`) -/

/-- One item of a user's comment or submission history, restricted to the
fields `user_stats` reads: `obj.subreddit.display_name`, `obj.ups`,
`obj.downs`. -/
structure HistPost where
  subreddit : String
  ups : Int
  downs : Int
deriving DecidableEq

/-- The raw accumulator held per bucket by `user_stats`
(`defaultdict(int)`: every field starts at 0). -/
structure RawBucket where
  count : Nat
  pos_karma : Int
  neg_karma : Int
deriving DecidableEq

def emptyBucket : RawBucket := ⟨0, 0, 0⟩

/-- The three `+=` lines applied to one bucket for one post
(src/scraper.py:43-48). -/
def bump (b : RawBucket) (obj : HistPost) : RawBucket :=
  ⟨b.count + 1, b.pos_karma + obj.ups, b.neg_karma + obj.downs⟩

/-- Pointwise update of the bucket map (assignment into the
`defaultdict`). -/
def updF (stats : String → RawBucket) (k : String) (v : RawBucket) :
    String → RawBucket :=
  fun x => if x = k then v else stats x

/-- The body of the accumulation loop of `user_stats`
(src/scraper.py:40-48), for one history item `obj`: bump the bucket named
by `obj.subreddit.display_name` when that name is tracked, and bump the
`GLOBAL` bucket unconditionally. -/
def us_step (subreddits : List String) (stats : String → RawBucket)
    (obj : HistPost) : String → RawBucket :=
  let stats1 :=
    if obj.subreddit ∈ subreddits then
      updF stats obj.subreddit (bump (stats obj.subreddit) obj)
    else stats
  updF stats1 "GLOBAL" (bump (stats1 "GLOBAL") obj)

/-- The accumulation loop of `user_stats` (src/scraper.py:38-48), folding
`us_step` over the history starting from all-zero buckets.  (The summary
pass of lines 50-51 is `build_summary_stats`, kept separate.) -/
def user_stats (gen : List HistPost) (subreddits : List String) :
    String → RawBucket :=
  gen.foldl (us_step subreddits) (fun _ => emptyBucket)

/-- A bucket after `_build_summary_stats` has filled in the derived
fields.  Python stores the averages as floats (or `None`); they are
embedded as exact rationals. -/
structure SummaryStats where
  count : Nat
  pos_karma : Int
  neg_karma : Int
  net_karma : Int
  avg_pos_karma : Option ℚ
  avg_neg_karma : Option ℚ
  avg_net_karma : Option ℚ
deriving DecidableEq

/-- Embedding of `_build_summary_stats` (src/scraper.py:12-22):
`net = pos - neg`; the three averages are `None` when `count == 0` and the
float quotients otherwise. -/
def build_summary_stats (b : RawBucket) : SummaryStats :=
  let net := b.pos_karma - b.neg_karma
  if b.count = 0 then
    ⟨b.count, b.pos_karma, b.neg_karma, net, none, none, none⟩
  else
    ⟨b.count, b.pos_karma, b.neg_karma, net,
      some ((b.pos_karma : ℚ) / (b.count : ℚ)),
      some ((b.neg_karma : ℚ) / (b.count : ℚ)),
      some ((net : ℚ) / (b.count : ℚ))⟩

/-! ## Retrying call wrapper (`safe_praw_call`) -/

/-- Outcome of one invocation of the wrapped zero-argument operation:
normal return, an `HTTPError` with a status code, or any other
exception. -/
inductive CallResult (α : Type) where
  | ok (a : α)
  | httpError (status_code : Nat)
  | otherError
deriving DecidableEq

/-- What `safe_praw_call` does for the caller: return the operation's
value, return the sentinel `False`, or let a non-HTTP exception
propagate. -/
inductive PrawResult (α : Type) where
  | value (a : α)
  | failed
  | raised
deriving DecidableEq

/-- The `while True` loop of `safe_praw_call` (src/scraper.py:131-143),
entered with counter `attempt_count`; `f k` is the outcome of the `k`-th
invocation of the wrapped operation.  Besides the result it returns the
number of invocations made and the total time slept (`sleep(15)` between
attempts).  The source tests `attempt_count == 5` with the counter
starting at 1 and increasing by 1, so on every reachable counter value
the test coincides with the guard `5 ≤ attempt_count` used here, which
also bounds the recursion. -/
def safe_praw_call_from (f : Nat → CallResult α) (attempt_count : Nat) :
    PrawResult α × Nat × Nat :=
  match f attempt_count with
  | .ok a => (.value a, 1, 0)
  | .otherError => (.raised, 1, 0)
  | .httpError _ =>
    if h : 5 ≤ attempt_count then (.failed, 1, 0)
    else
      let r := safe_praw_call_from f (attempt_count + 1)
      (r.1, r.2.1 + 1, r.2.2 + 15)
termination_by 5 - attempt_count
decreasing_by omega

/-- Embedding of `safe_praw_call` (src/scraper.py:131-143): run the loop
with `attempt_count = 1`. -/
def safe_praw_call (f : Nat → CallResult α) : PrawResult α × Nat × Nat :=
  safe_praw_call_from f 1

/-! ## Relational store and `add_model` (src/commentDB.py, scraper.py:146-182) -/

/-- A `subreddits` table row, restricted to its columns read by the
scraper: natural key `subreddit_id` and `name`. -/
structure SubredditRow where
  subreddit_id : String
  name : String
deriving DecidableEq

/-- A `submissions` table row: natural key `sub_id` and the nullable
author reference `user_name` (the further content columns play no role in
any verified claim and are omitted). -/
structure SubmissionRow where
  sub_id : String
  user_name : Option String
deriving DecidableEq

/-- A `comments` table row: natural key `com_id`, nullable author, and the
three values computed at load time by `load_comments` (`best_rank`,
`num_replies`, `convo_depth`). -/
structure CommentRow where
  com_id : String
  user_name : Option String
  best_rank : Nat
  num_replies : Nat
  convo_depth : Nat
deriving DecidableEq

/-- A `users` table row; only the natural key `name` is populated by the
stub path verified here. -/
structure UserRow where
  name : String
deriving DecidableEq

/-- A `user_activities` table row (minus its auto-increment surrogate
`id`): user, subreddit reference, and the two summarized stat blocks. -/
structure UserActivityRow where
  user_name : String
  subreddit_id : String
  subreddit_name : String
  comment_stats : SummaryStats
  submission_stats : SummaryStats
deriving DecidableEq

/-- A model object handed to `add_model`: one of the five mapped entity
classes of src/commentDB.py. -/
inductive Model where
  | subreddit (r : SubredditRow)
  | submission (r : SubmissionRow)
  | comment (r : CommentRow)
  | user (r : UserRow)
  | activity (r : UserActivityRow)
deriving DecidableEq

/-- The session's tables. -/
structure Store where
  subreddits : List SubredditRow
  submissions : List SubmissionRow
  comments : List CommentRow
  users : List UserRow
  activities : List UserActivityRow
deriving DecidableEq

def emptyStore : Store := ⟨[], [], [], [], []⟩

/-- The duplicate lookup of `add_model` (src/scraper.py:146-163): the
`isinstance` dispatch queries the matching table by the model's natural
key and asks whether `first()` found a row.  `UserActivity` model objects
match no branch, so `obj` stays `None` for them. -/
def dup_query (model : Model) (session : Store) : Bool :=
  match model with
  | .subreddit r => session.subreddits.any (fun x => x.subreddit_id == r.subreddit_id)
  | .submission r => session.submissions.any (fun x => x.sub_id == r.sub_id)
  | .comment r => session.comments.any (fun x => x.com_id == r.com_id)
  | .user r => session.users.any (fun x => x.name == r.name)
  | .activity _ => false

/-- Effect of `session.add(model)` followed by a successful `commit`: the
row joins its table. -/
def insert_model (model : Model) (session : Store) : Store :=
  match model with
  | .subreddit r => { session with subreddits := session.subreddits ++ [r] }
  | .submission r => { session with submissions := session.submissions ++ [r] }
  | .comment r => { session with comments := session.comments ++ [r] }
  | .user r => { session with users := session.users ++ [r] }
  | .activity r => { session with activities := session.activities ++ [r] }

/-- Embedding of `add_model` (src/scraper.py:146-173).  `insert_ok` says
whether the underlying `session.add`/`session.commit` pair succeeds; when
it fails the bare `except` branch does `session.rollback()` and returns
`False`, so no exception escapes and the store is unchanged. -/
def add_model_r (insert_ok : Bool) (model : Model) (session : Store) :
    Bool × Store :=
  if dup_query model session then (false, session)
  else if insert_ok then (true, insert_model model session)
  else (false, session)

/-- The function `add_model` on a run where the store accepts every insert
(the normal path taken by the loader theorems below). -/
def add_model (model : Model) (session : Store) : Bool × Store :=
  add_model_r true model session

/-- The spec's side of the duplicate check, stated directly from its
words: a stored row already matches the entity's natural identity key
(`subreddit_id` / `sub_id` / `com_id` / `name` depending on type).  The
spec assigns no natural key to `UserActivity`. -/
def natural_key_present (model : Model) (session : Store) : Prop :=
  match model with
  | .subreddit r => ∃ x ∈ session.subreddits, x.subreddit_id = r.subreddit_id
  | .submission r => ∃ x ∈ session.submissions, x.sub_id = r.sub_id
  | .comment r => ∃ x ∈ session.comments, x.com_id = r.com_id
  | .user r => ∃ x ∈ session.users, x.name = r.name
  | .activity _ => False

instance (model : Model) (session : Store) :
    Decidable (natural_key_present model session) := by
  unfold natural_key_present
  cases model <;> infer_instance

/-- The four entity types the spec's dedup contract speaks about
(everything except `UserActivity`). -/
def Model.keyed : Model → Bool
  | .activity _ => false
  | _ => true

/-! ## Crawl state and the loaders -/

/-- The state threaded through the loaders: the `users` seen-username set
(a Python `set`, modeled as a list queried by membership), the session's
`Store`, plus two observation traces that make the claims statable: `log`
records every model handed to `add_model` in order, and `expanded` records
the `sub_id` of every submission for which
`submission.replace_more_comments` was invoked. -/
structure CrawlState where
  users : List String
  session : Store
  log : List Model
  expanded : List String
deriving DecidableEq

/-- The call to `add_model` as made by the loaders, with the submitted
model recorded in the log. -/
def submit_model (m : Model) (st : CrawlState) : Bool × CrawlState :=
  let r := add_model m st.session
  (r.1, { st with session := r.2, log := st.log ++ [m] })

/-- The author-stub snippet shared by `load_comments`
(src/scraper.py:94-97) and `load_subreddit` (112-115): when the author is
non-null and its name is not yet in the seen-user set, add the name to
the set and submit a name-only `User` stub. -/
def register_author (author : Option String) (st : CrawlState) : CrawlState :=
  match author with
  | none => st
  | some name =>
    if name ∈ st.users then st
    else
      let st1 := { st with users := name :: st.users }
      (submit_model (.user ⟨name⟩) st1).2

/-- Python 2 `body.encode('ascii', 'ignore')`: characters outside the
ASCII range are dropped, the rest kept in order. -/
def encode_ascii_ignore (s : String) : String :=
  ⟨s.data.filter (fun ch => ch.toNat < 128)⟩

/-- The row built by
`commentDB.Comment(c, rank, len(c.replies), _max_tree_depth(c))`
(src/scraper.py:99 together with the constructor in src/commentDB.py). -/
def comment_row (c : PComment) (rank : Nat) : CommentRow :=
  ⟨c.com_id, c.author, rank, c.replies.length, max_tree_depth c⟩

/-- Whether a comment's decoded body equals the literal deleted-content
marker (the skip test at src/scraper.py:91-93). -/
def is_deleted_comment (c : PComment) : Bool :=
  encode_ascii_ignore c.body == "[deleted]"

/-- One iteration of the `load_comments` loop for comment `c` at
enumeration rank `rank` (src/scraper.py:90-100): skip if deleted,
otherwise register the author stub and submit the comment row. -/
def load_comment_step (c : PComment) (rank : Nat) (st : CrawlState) :
    CrawlState :=
  if is_deleted_comment c then st
  else
    let st1 := register_author c.author st
    (submit_model (.comment (comment_row c rank)) st1).2

/-- The `load_comments` loop from a given enumeration rank. -/
def load_comments_from (comments : List PComment) (rank : Nat)
    (st : CrawlState) : CrawlState :=
  match comments with
  | [] => st
  | c :: cs => load_comments_from cs (rank + 1) (load_comment_step c rank st)

/-- Embedding of `load_comments` (src/scraper.py:89-100):
`enumerate(comments, start=1)` assigns ranks by position before the
deleted-comment filter runs. -/
def load_comments (comments : List PComment) (st : CrawlState) : CrawlState :=
  load_comments_from comments 1 st

/-- A submission as delivered by the search, restricted to the fields the
loader reads; `expand_ok` is the outcome of the retried
`replace_more_comments` call (`safe_praw_call` returning the sentinel
`False` makes it `false`), which is external nondeterminism recorded per
submission. -/
structure PSubmission where
  sub_id : String
  is_self : Bool
  author : Option String
  comments : List PComment
  expand_ok : Bool

/-- The row built by `commentDB.Submission(submission)`, restricted to the
columns kept in `SubmissionRow`: `sub_id = s.fullname`,
`user_name = get_author_name(s)`. -/
def submission_row (s : PSubmission) : SubmissionRow :=
  ⟨s.sub_id, s.author⟩

/-- Record that `submission.replace_more_comments` was invoked for this
submission (src/scraper.py:122). -/
def mark_expanded (sub : PSubmission) (st : CrawlState) : CrawlState :=
  { st with expanded := st.expanded ++ [sub.sub_id] }

/-- The tail of the submission loop body after the `add_model` call
(src/scraper.py:118-126), given its result `r`: `continue` when the
submission was already stored; otherwise attempt the comment-tree
expansion and, when it succeeded, load the comments. -/
def after_add (sub : PSubmission) (r : Bool × CrawlState) : CrawlState :=
  if !r.1 then r.2
  else if !sub.expand_ok then mark_expanded sub r.2
  else load_comments sub.comments (mark_expanded sub r.2)

/-- The body of the submission loop of `load_subreddit`
(src/scraper.py:108-126): skip non-self posts; register the author stub;
submit the submission row; then `after_add`. -/
def process_submission (sub : PSubmission) (st : CrawlState) : CrawlState :=
  if !sub.is_self then st
  else after_add sub
    (submit_model (.submission (submission_row sub)) (register_author sub.author st))

/-- The flair whitelist of `load_subreddit` (src/scraper.py:104-105). -/
def flairs : List String :=
  ["Physics", "Maths", "Astro", "Computing", "Geo",
   "Eng", "Chem", "Soc", "Bio", "Psych", "Med", "Neuro"]

/-- Embedding of `load_subreddit` (src/scraper.py:103-126): for each
flair, run the subreddit search (`search` stands for the remote
subreddit search result for that flair) and process every returned
submission in order. -/
def load_subreddit (search : String → List PSubmission) (st : CrawlState) :
    CrawlState :=
  flairs.foldl
    (fun acc flair =>
      (search flair).foldl (fun acc2 sub => process_submission sub acc2) acc)
    st

/-- The per-user activity loop of `load_users` (src/scraper.py:70-77):
for each entry of the `subreddit_models` dict (key, `Subreddit` model),
build the `UserActivity` model from the bucket stats under that key and
`add_model` it. -/
def load_user_activities (user_name : String)
    (subreddit_models : List (String × SubredditRow))
    (comment_stats submission_stats : String → SummaryStats)
    (session : Store) : Store :=
  subreddit_models.foldl
    (fun s p =>
      (add_model
        (.activity ⟨user_name, p.2.subreddit_id, p.2.name,
                    comment_stats p.1, submission_stats p.1⟩) s).2)
    session

/-! ## Observation helpers and concrete sample inputs -/

/-- Python's `enumerate(xs, start=n)`. -/
def enum_from (n : Nat) : List α → List (Nat × α)
  | [] => []
  | a :: as => (n, a) :: enum_from (n + 1) as

/-- The `Comment` rows among a list of submitted models, in order. -/
def comment_models (log : List Model) : List CommentRow :=
  log.filterMap (fun m =>
    match m with
    | .comment r => some r
    | _ => none)

/-- How many times a name-only `User` stub for `name` was handed to the
persistence layer. -/
def stub_count (name : String) (log : List Model) : Nat :=
  log.countP (fun m => m == .user ⟨name⟩)

/-- The crawl-wide stub invariant: each name has been submitted as a stub
at most once, and a name with a submitted stub is in the seen-user set. -/
def stub_inv (st : CrawlState) : Prop :=
  ∀ name, stub_count name st.log ≤ 1
    ∧ (1 ≤ stub_count name st.log → name ∈ st.users)

/-- The `UserActivity` row produced by one iteration of the activity loop
for dict entry `p`. -/
def activity_row_for (u : String) (cs ss : String → SummaryStats)
    (p : String × SubredditRow) : UserActivityRow :=
  ⟨u, p.2.subreddit_id, p.2.name, cs p.1, ss p.1⟩

/-- An all-zero summarized stat block, used in concrete instances. -/
def sampleStats : SummaryStats := ⟨0, 0, 0, 0, none, none, none⟩

/-- A concrete `UserActivity` row for counterexamples and witnesses. -/
def sampleActivity : UserActivityRow :=
  ⟨"alice", "t5_2qm4e", "askscience", sampleStats, sampleStats⟩

/-- A leaf comment by alice. -/
def c_leaf : PComment := .mk "t1_a" "hello" (some "alice") []

/-- A comment by bob with one leaf reply. -/
def c_mid : PComment := .mk "t1_b" "parent" (some "bob") [c_leaf]

/-- A deleted comment (null author, body equal to the marker). -/
def c_del : PComment := .mk "t1_c" "[deleted]" none []

/-- A concrete self-post with one nested-reply comment and one deleted
comment. -/
def sample_sub : PSubmission :=
  ⟨"t3_s1", true, some "carol", [c_mid, c_del], true⟩

/-- A concrete non-self post. -/
def sample_link : PSubmission := ⟨"t3_s2", false, some "dave", [], true⟩

/-- A concrete search result function: one hit under one flair. -/
def sample_search : String → List PSubmission :=
  fun flair => if flair = "Physics" then [sample_sub] else []

/-- The crawl state at process start: empty seen-user set, empty store,
nothing submitted, nothing expanded. -/
def st0 : CrawlState := ⟨[], emptyStore, [], []⟩

/-- A crawl state whose store already holds `sample_sub`'s row (as after a
completed earlier pass). -/
def st_dup : CrawlState :=
  ⟨[], { emptyStore with submissions := [submission_row sample_sub] }, [], []⟩

/-- A concrete operation failing with HTTP 503 on the first four calls and
succeeding on the fifth. -/
def f_ok5 : Nat → CallResult Nat :=
  fun j => if j < 5 then .httpError 503 else .ok 7

/-- A concrete operation failing with HTTP 500 on every call. -/
def f_allfail : Nat → CallResult Nat := fun _ => .httpError 500

/-! ## Lemmas about `max_tree_depth` -/

theorem replies_max_depth_is_ub (l : List PComment) :
    ∀ r ∈ l, max_tree_depth r ≤ replies_max_depth l := by
  induction l with
  | nil => intro r hr; cases hr
  | cons a as ih =>
    intro r hr
    rcases hr with _ | hr
    · exact Nat.le_max_left _ _
    · exact le_trans (ih r (by assumption)) (Nat.le_max_right _ _)

theorem replies_max_depth_mem (l : List PComment) (h : l ≠ []) :
    ∃ r ∈ l, max_tree_depth r = replies_max_depth l := by
  induction l with
  | nil => exact absurd rfl h
  | cons a as ih =>
    cases as with
    | nil =>
      exact ⟨a, List.mem_cons_self _ _, by simp [replies_max_depth]⟩
    | cons b bs =>
      rcases ih (by simp) with ⟨r, hr, hd⟩
      rcases Nat.le_total (max_tree_depth a) (replies_max_depth (b :: bs)) with hle | hle
      · refine ⟨r, List.mem_cons_of_mem _ hr, ?_⟩
        show max_tree_depth r
          = max (max_tree_depth a) (replies_max_depth (b :: bs))
        omega
      · refine ⟨a, List.mem_cons_self _ _, ?_⟩
        show max_tree_depth a
          = max (max_tree_depth a) (replies_max_depth (b :: bs))
        omega

/-- C3: the computed conversation depth is 1 for a comment with no
replies, and 1 plus the maximum of the depths of its immediate replies
otherwise (the maximum being an attained upper bound); in particular a
comment whose only reply has no replies has depth 2. -/
theorem C3_convo_depth (i b : String) (a : Option String)
    (replies : List PComment) :
    (replies = [] → max_tree_depth (.mk i b a replies) = 1)
  ∧ (replies ≠ [] →
      ∃ m, max_tree_depth (.mk i b a replies) = 1 + m
        ∧ (∀ r ∈ replies, max_tree_depth r ≤ m)
        ∧ ∃ r ∈ replies, max_tree_depth r = m)
  ∧ (∀ (i2 b2 : String) (a2 : Option String),
      max_tree_depth (.mk i b a [.mk i2 b2 a2 []]) = 2) := by
  refine ⟨?_, ?_, ?_⟩
  · intro h; subst h; rfl
  · intro h
    cases replies with
    | nil => exact absurd rfl h
    | cons r rs =>
      refine ⟨replies_max_depth (r :: rs), rfl, replies_max_depth_is_ub _, ?_⟩
      exact replies_max_depth_mem (r :: rs) (by simp)
  · intro i2 b2 a2; rfl

theorem C3_convo_depth_witness :
    ([c_mid] ≠ ([] : List PComment))
  ∧ (∃ m, max_tree_depth (.mk "t1_p" "q" none [c_mid]) = 1 + m
      ∧ (∀ r ∈ [c_mid], max_tree_depth r ≤ m)
      ∧ ∃ r ∈ [c_mid], max_tree_depth r = m) :=
  ⟨by simp, (C3_convo_depth "t1_p" "q" none [c_mid]).2.1 (by simp)⟩

/-! ## Lemmas about `add_model` -/

theorem dup_query_iff (model : Model) (session : Store) :
    dup_query model session = true ↔ natural_key_present model session := by
  cases model <;>
    simp [dup_query, natural_key_present, List.any_eq_true, beq_iff_eq]

theorem add_model_r_of_present (insert_ok : Bool) (m : Model) (s : Store)
    (h : natural_key_present m s) :
    add_model_r insert_ok m s = (false, s) := by
  have hd : dup_query m s = true := (dup_query_iff m s).mpr h
  simp [add_model_r, hd]

theorem add_model_r_of_absent (m : Model) (s : Store)
    (h : ¬ natural_key_present m s) :
    add_model_r true m s = (true, insert_model m s)
    ∧ add_model_r false m s = (false, s) := by
  have hd : dup_query m s = false := by
    cases hq : dup_query m s with
    | false => rfl
    | true => exact absurd ((dup_query_iff m s).mp hq) h
  constructor <;> simp [add_model_r, hd]

theorem natural_key_present_insert_self (m : Model) (s : Store)
    (hk : m.keyed = true) :
    natural_key_present m (insert_model m s) := by
  cases m with
  | subreddit r => exact ⟨r, by simp [insert_model], rfl⟩
  | submission r => exact ⟨r, by simp [insert_model], rfl⟩
  | comment r => exact ⟨r, by simp [insert_model], rfl⟩
  | user r => exact ⟨r, by simp [insert_model], rfl⟩
  | activity r => simp [Model.keyed] at hk

/-- C1: for a `Subreddit`, `Submission`, `Comment` or `User` model whose
natural identity key already matches a stored row, `add_model` returns
`False` and the store is unchanged; with no matching row it inserts the
row and returns `True` when the commit succeeds, and on an insert failure
it rolls back, returns `False`, and (being a total function here) lets no
exception escape. -/
theorem C1_add_model_contract (insert_ok : Bool) (m : Model) (s : Store)
    (_hk : m.keyed = true) :
    (natural_key_present m s → add_model_r insert_ok m s = (false, s))
  ∧ (¬ natural_key_present m s →
      add_model_r true m s = (true, insert_model m s)
      ∧ add_model_r false m s = (false, s)) :=
  ⟨fun h => add_model_r_of_present insert_ok m s h,
   fun h => add_model_r_of_absent m s h⟩

theorem C1_add_model_contract_witness :
    (Model.user ⟨"alice"⟩).keyed = true
  ∧ ((natural_key_present (.user ⟨"alice"⟩) emptyStore →
        add_model_r true (.user ⟨"alice"⟩) emptyStore = (false, emptyStore))
     ∧ (¬ natural_key_present (.user ⟨"alice"⟩) emptyStore →
        add_model_r true (.user ⟨"alice"⟩) emptyStore
            = (true, insert_model (.user ⟨"alice"⟩) emptyStore)
        ∧ add_model_r false (.user ⟨"alice"⟩) emptyStore
            = (false, emptyStore))) :=
  ⟨rfl, C1_add_model_contract true (.user ⟨"alice"⟩) emptyStore rfl⟩

/-! ## Lemmas about `safe_praw_call` -/

theorem safe_from_ok (f : Nat → CallResult α) (a : α) :
    ∀ (d i : Nat), i + d ≤ 5 →
      (∀ j, i ≤ j → j < i + d → ∃ c, f j = .httpError c) →
      f (i + d) = .ok a →
      safe_praw_call_from f i = (.value a, d + 1, 15 * d) := by
  intro d
  induction d with
  | zero =>
    intro i h5 hfail hok
    unfold safe_praw_call_from
    simp only [Nat.add_zero] at hok
    rw [hok]
  | succ n ih =>
    intro i h5 hfail hok
    obtain ⟨c, hc⟩ := hfail i (le_refl i) (by omega)
    unfold safe_praw_call_from
    rw [hc]
    have hi5 : ¬ 5 ≤ i := by omega
    rw [dif_neg hi5]
    have hrec := ih (i + 1) (by omega)
      (fun j hj1 hj2 => hfail j (by omega) (by omega))
      (by rw [show i + 1 + n = i + (n + 1) by omega]; exact hok)
    rw [hrec]
    show (PrawResult.value a, n + 1 + 1, 15 * n + 15)
      = (PrawResult.value a, n + 1 + 1, 15 * (n + 1))
    rw [Nat.mul_succ]

theorem safe_from_raised (f : Nat → CallResult α) :
    ∀ (d i : Nat), i + d ≤ 5 →
      (∀ j, i ≤ j → j < i + d → ∃ c, f j = .httpError c) →
      f (i + d) = .otherError →
      safe_praw_call_from f i = (.raised, d + 1, 15 * d) := by
  intro d
  induction d with
  | zero =>
    intro i h5 hfail hok
    unfold safe_praw_call_from
    simp only [Nat.add_zero] at hok
    rw [hok]
  | succ n ih =>
    intro i h5 hfail hok
    obtain ⟨c, hc⟩ := hfail i (le_refl i) (by omega)
    unfold safe_praw_call_from
    rw [hc]
    have hi5 : ¬ 5 ≤ i := by omega
    rw [dif_neg hi5]
    have hrec := ih (i + 1) (by omega)
      (fun j hj1 hj2 => hfail j (by omega) (by omega))
      (by rw [show i + 1 + n = i + (n + 1) by omega]; exact hok)
    rw [hrec]
    show (PrawResult.raised (α := α), n + 1 + 1, 15 * n + 15)
      = (PrawResult.raised, n + 1 + 1, 15 * (n + 1))
    rw [Nat.mul_succ]

theorem safe_from_allfail (f : Nat → CallResult α) :
    ∀ (d i : Nat), i + d = 5 →
      (∀ j, i ≤ j → j ≤ 5 → ∃ c, f j = .httpError c) →
      safe_praw_call_from f i = (.failed, d + 1, 15 * d) := by
  intro d
  induction d with
  | zero =>
    intro i h5 hfail
    obtain ⟨c, hc⟩ := hfail i (le_refl i) (by omega)
    unfold safe_praw_call_from
    rw [hc]
    rw [dif_pos (by omega)]
  | succ n ih =>
    intro i h5 hfail
    obtain ⟨c, hc⟩ := hfail i (le_refl i) (by omega)
    unfold safe_praw_call_from
    rw [hc]
    have hi5 : ¬ 5 ≤ i := by omega
    rw [dif_neg hi5]
    have hrec := ih (i + 1) (by omega)
      (fun j hj1 hj2 => hfail j (by omega) hj2)
    rw [hrec]
    show (PrawResult.failed (α := α), n + 1 + 1, 15 * n + 15)
      = (PrawResult.failed, n + 1 + 1, 15 * (n + 1))
    rw [Nat.mul_succ]

/-- C2: for the retry wrapper with `f j` the outcome of the `j`-th
invocation, if invocations `1 .. k-1` raise HTTP errors then: a success at
invocation `k` (`1 ≤ k ≤ 5`) makes the wrapper return that result after
exactly `k` invocations with a 15-unit pause between consecutive attempts
(`15 * (k-1)` total sleep); HTTP errors on all five invocations make it
return the sentinel after exactly 5 invocations (no 6th call) and 4
pauses; and a non-HTTP error propagates (outcome `raised`). -/
theorem C2_safe_praw_call (f : Nat → CallResult α) (k : Nat) (a : α)
    (h1 : 1 ≤ k) (h5 : k ≤ 5)
    (hfail : ∀ j, 1 ≤ j → j < k → ∃ c, f j = .httpError c) :
    (f k = .ok a → safe_praw_call f = (.value a, k, 15 * (k - 1)))
  ∧ (f k = .otherError → safe_praw_call f = (.raised, k, 15 * (k - 1)))
  ∧ ((∀ j, 1 ≤ j → j ≤ 5 → ∃ c, f j = .httpError c) →
      safe_praw_call f = (.failed, 5, 15 * 4)) := by
  refine ⟨?_, ?_, ?_⟩
  · intro hok
    have := safe_from_ok f a (k - 1) 1 (by omega)
      (fun j hj1 hj2 => hfail j hj1 (by omega))
      (by rw [show 1 + (k - 1) = k by omega]; exact hok)
    show safe_praw_call_from f 1 = _
    rw [this, Nat.sub_add_cancel h1]
  · intro hok
    have := safe_from_raised f (k - 1) 1 (by omega)
      (fun j hj1 hj2 => hfail j hj1 (by omega))
      (by rw [show 1 + (k - 1) = k by omega]; exact hok)
    show safe_praw_call_from f 1 = _
    rw [this, Nat.sub_add_cancel h1]
  · intro hall
    have := safe_from_allfail f 4 1 (by omega) hall
    show safe_praw_call_from f 1 = _
    rw [this]

theorem C2_safe_praw_call_witness :
    safe_praw_call f_ok5 = (.value 7, 5, 60)
  ∧ safe_praw_call f_allfail = (.failed, 5, 60) :=
  ⟨(C2_safe_praw_call f_ok5 5 7 (by omega) (by omega)
      (fun j hj1 hj2 => ⟨503, by simp [f_ok5, hj2]⟩)).1
      (by simp [f_ok5]),
   (C2_safe_praw_call f_allfail 1 0 (by omega) (by omega)
      (fun j hj1 hj2 => absurd hj1 (by omega))).2.2
      (fun j hj1 hj2 => ⟨500, rfl⟩)⟩

/-! ## Summary statistics (C5) -/

/-- C5: the summary builder sets net karma to positive minus negative; a
zero post count makes all three averages null (not zero); a positive count
makes each average the corresponding total divided by the count, with a
provably nonzero divisor (the division-by-zero branch is never taken); and
the spec's worked example (10 positive, 3 negative over 2 posts) yields
net 7, averages 5, 3/2, 7/2. -/
theorem C5_build_summary_stats (b : RawBucket) :
    (build_summary_stats b).net_karma = b.pos_karma - b.neg_karma
  ∧ (b.count = 0 →
      (build_summary_stats b).avg_pos_karma = none
      ∧ (build_summary_stats b).avg_neg_karma = none
      ∧ (build_summary_stats b).avg_net_karma = none)
  ∧ (b.count ≠ 0 →
      ((b.count : ℚ) ≠ 0
       ∧ (build_summary_stats b).avg_pos_karma
           = some ((b.pos_karma : ℚ) / (b.count : ℚ))
       ∧ (build_summary_stats b).avg_neg_karma
           = some ((b.neg_karma : ℚ) / (b.count : ℚ))
       ∧ (build_summary_stats b).avg_net_karma
           = some (((b.pos_karma - b.neg_karma : ℤ) : ℚ) / (b.count : ℚ))))
  ∧ (b = ⟨2, 10, 3⟩ →
      (build_summary_stats b).net_karma = 7
      ∧ (build_summary_stats b).avg_pos_karma = some 5
      ∧ (build_summary_stats b).avg_neg_karma = some (3 / 2)
      ∧ (build_summary_stats b).avg_net_karma = some (7 / 2)) := by
  refine ⟨?_, ?_, ?_, ?_⟩
  · by_cases h : b.count = 0 <;> simp [build_summary_stats, h]
  · intro h; simp [build_summary_stats, h]
  · intro h
    refine ⟨by exact_mod_cast h, ?_, ?_, ?_⟩ <;> simp [build_summary_stats, h]
  · intro h; subst h
    refine ⟨rfl, ?_, ?_, ?_⟩ <;> (simp [build_summary_stats] <;> norm_num)

theorem C5_build_summary_stats_witness :
    ((2 : Nat) ≠ 0
     ∧ (build_summary_stats ⟨2, 10, 3⟩).avg_pos_karma
         = some (((10 : ℤ) : ℚ) / ((2 : Nat) : ℚ)))
  ∧ (build_summary_stats ⟨0, 4, 1⟩).avg_net_karma = none
  ∧ (build_summary_stats ⟨2, 10, 3⟩).avg_net_karma = some (7 / 2) :=
  ⟨⟨by decide, ((C5_build_summary_stats ⟨2, 10, 3⟩).2.2.1 (by decide)).2.1⟩,
   ((C5_build_summary_stats ⟨0, 4, 1⟩).2.1 rfl).2.2,
   ((C5_build_summary_stats ⟨2, 10, 3⟩).2.2.2 rfl).2.2.2⟩

/-! ## User stats buckets (C8) -/

theorem us_step_other (subreddits : List String)
    (stats : String → RawBucket) (obj : HistPost) (name : String)
    (hg : name ≠ "GLOBAL") (hs : obj.subreddit ≠ name) :
    us_step subreddits stats obj name = stats name := by
  unfold us_step updF
  simp only [hg, if_false]
  split <;> simp [hs.symm]

theorem us_step_tracked (subreddits : List String)
    (stats : String → RawBucket) (obj : HistPost) (name : String)
    (hg : name ≠ "GLOBAL") (hmem : name ∈ subreddits)
    (hs : obj.subreddit = name) :
    us_step subreddits stats obj name = bump (stats name) obj := by
  unfold us_step updF
  subst hs
  simp [hg, hmem]

theorem us_step_global (subreddits : List String)
    (stats : String → RawBucket) (obj : HistPost)
    (hs : obj.subreddit ≠ "GLOBAL") :
    us_step subreddits stats obj "GLOBAL" = bump (stats "GLOBAL") obj := by
  unfold us_step updF
  by_cases hm : obj.subreddit ∈ subreddits <;>
    simp [hm, hs, Ne.symm hs]

theorem us_step_untracked_post (subreddits : List String)
    (stats : String → RawBucket) (obj : HistPost) (name : String)
    (hg : name ≠ "GLOBAL") (hno : obj.subreddit ∉ subreddits) :
    us_step subreddits stats obj name = stats name := by
  unfold us_step updF
  simp [hno, hg]

theorem user_stats_loop_untracked (subreddits : List String)
    (name : String) (hg : name ≠ "GLOBAL") (hns : name ∉ subreddits) :
    ∀ (gen : List HistPost) (stats : String → RawBucket),
      gen.foldl (us_step subreddits) stats name = stats name := by
  intro gen
  induction gen with
  | nil => intro stats; rfl
  | cons obj rest ih =>
    intro stats
    rw [List.foldl_cons, ih]
    by_cases hs : obj.subreddit = name
    · exact us_step_untracked_post subreddits stats obj name hg
        (by rw [hs]; exact hns)
    · exact us_step_other subreddits stats obj name hg hs

theorem user_stats_loop_tracked (subreddits : List String)
    (name : String) (hg : name ≠ "GLOBAL") (hmem : name ∈ subreddits) :
    ∀ (gen : List HistPost) (stats : String → RawBucket),
      gen.foldl (us_step subreddits) stats name
        = (gen.filter (fun p => p.subreddit == name)).foldl bump (stats name) := by
  intro gen
  induction gen with
  | nil => intro stats; rfl
  | cons obj rest ih =>
    intro stats
    rw [List.foldl_cons, ih]
    by_cases hs : obj.subreddit = name
    · rw [us_step_tracked subreddits stats obj name hg hmem hs]
      simp [List.filter_cons, hs]
    · rw [us_step_other subreddits stats obj name hg hs]
      simp only [List.filter_cons]
      rw [if_neg (by simp [hs])]

theorem user_stats_loop_global (subreddits : List String) :
    ∀ (gen : List HistPost), (∀ p ∈ gen, p.subreddit ≠ "GLOBAL") →
      ∀ (stats : String → RawBucket),
        gen.foldl (us_step subreddits) stats "GLOBAL"
          = gen.foldl bump (stats "GLOBAL") := by
  intro gen
  induction gen with
  | nil => intro _ stats; rfl
  | cons obj rest ih =>
    intro hng stats
    rw [List.foldl_cons, List.foldl_cons,
      ih (fun p hp => hng p (List.mem_cons_of_mem _ hp)),
      us_step_global subreddits stats obj (hng obj (List.mem_cons_self _ _))]

theorem bump_foldl_totals :
    ∀ (l : List HistPost) (b : RawBucket),
      l.foldl bump b
        = ⟨b.count + l.length,
           b.pos_karma + (l.map HistPost.ups).sum,
           b.neg_karma + (l.map HistPost.downs).sum⟩ := by
  intro l
  induction l with
  | nil => intro b; simp
  | cons p rest ih =>
    intro b
    rw [List.foldl_cons, ih]
    simp [bump]
    refine ⟨by omega, by ring, by ring⟩

/-- C8 (counterexample): the claim's consequence "GLOBAL totals equal the
sums over the entire history regardless of subreddit" fails when a post's
subreddit is itself named `GLOBAL` and tracked (as `GLOBAL` always is:
`main` passes the `subreddit_models` dict, which contains the `GLOBAL`
sentinel, as the tracked set): the single post is counted twice in the
`GLOBAL` bucket. -/
theorem C8_counterexample :
    (user_stats [⟨"GLOBAL", 1, 0⟩] ["GLOBAL"] "GLOBAL").count = 2
  ∧ [(⟨"GLOBAL", 1, 0⟩ : HistPost)].length = 1 := by
  constructor
  · rfl
  · rfl

/-- C8 (amended): per-post the `GLOBAL` bucket is bumped unconditionally
and the bucket named by the post's subreddit is bumped iff that name is
tracked, so a bucket named by an untracked (non-`GLOBAL`) name stays
empty, a tracked (non-`GLOBAL`) name's bucket carries exactly the totals
of the posts naming it, and — provided no post's subreddit is itself named
`GLOBAL` — the `GLOBAL` totals equal the sums over the entire history. -/
theorem C8_amended_user_stats (gen : List HistPost)
    (subreddits : List String) :
    (∀ name, name ∉ subreddits → name ≠ "GLOBAL" →
      user_stats gen subreddits name = emptyBucket)
  ∧ (∀ name, name ∈ subreddits → name ≠ "GLOBAL" →
      user_stats gen subreddits name
        = ⟨(gen.filter (fun p => p.subreddit == name)).length,
           ((gen.filter (fun p => p.subreddit == name)).map HistPost.ups).sum,
           ((gen.filter (fun p => p.subreddit == name)).map HistPost.downs).sum⟩)
  ∧ ((∀ p ∈ gen, p.subreddit ≠ "GLOBAL") →
      user_stats gen subreddits "GLOBAL"
        = ⟨gen.length, (gen.map HistPost.ups).sum, (gen.map HistPost.downs).sum⟩) := by
  refine ⟨?_, ?_, ?_⟩
  · intro name hns hg
    exact user_stats_loop_untracked subreddits name hg hns gen _
  · intro name hmem hg
    rw [user_stats, user_stats_loop_tracked subreddits name hg hmem gen _,
      bump_foldl_totals]
    simp [emptyBucket]
  · intro hng
    rw [user_stats, user_stats_loop_global subreddits gen hng _,
      bump_foldl_totals]
    simp [emptyBucket]

theorem C8_amended_user_stats_witness :
    ("askscience" ∈ ["GLOBAL", "askscience"]
     ∧ ("askscience" : String) ≠ "GLOBAL"
     ∧ user_stats [⟨"askscience", 3, 1⟩, ⟨"funny", 2, 2⟩]
         ["GLOBAL", "askscience"] "askscience"
       = ⟨1, 3, 1⟩)
  ∧ ((∀ p ∈ [(⟨"askscience", 3, 1⟩ : HistPost), ⟨"funny", 2, 2⟩],
        p.subreddit ≠ "GLOBAL")
     ∧ user_stats [⟨"askscience", 3, 1⟩, ⟨"funny", 2, 2⟩]
         ["GLOBAL", "askscience"] "GLOBAL"
       = ⟨2, 5, 3⟩) := by
  have h := C8_amended_user_stats
    [⟨"askscience", 3, 1⟩, ⟨"funny", 2, 2⟩] ["GLOBAL", "askscience"]
  refine ⟨⟨by decide, by decide, ?_⟩, ⟨by decide, ?_⟩⟩
  · exact h.2.1 "askscience" (by decide) (by decide)
  · exact h.2.2 (by decide)

/-! ## Re-ingestion idempotence (C6) -/

theorem load_user_activities_spec (u : String)
    (cs ss : String → SummaryStats) :
    ∀ (sm : List (String × SubredditRow)) (s2 : Store),
      (load_user_activities u sm cs ss s2).activities
        = s2.activities ++ sm.map (activity_row_for u cs ss) := by
  intro sm
  induction sm with
  | nil => intro s2; simp [load_user_activities]
  | cons p rest ih =>
    intro s2
    show (load_user_activities u rest cs ss _).activities = _
    rw [ih]
    simp [add_model, add_model_r, dup_query, insert_model, activity_row_for]

/-- C6 (counterexample): re-ingesting an entity committed earlier is not
always a no-op.  `add_model` has no `isinstance` branch for
`UserActivity`, so adding the same activity row twice inserts a duplicate
and the second add still returns `True`. -/
theorem C6_counterexample :
    (add_model (.activity sampleActivity)
        (add_model (.activity sampleActivity) emptyStore).2).1 = true
  ∧ (add_model (.activity sampleActivity)
        (add_model (.activity sampleActivity) emptyStore).2).2.activities
      = [sampleActivity, sampleActivity] :=
  ⟨rfl, rfl⟩

/-- C6 (amended): re-ingesting an entity of one of the four natural-keyed
types (`Subreddit`, `Submission`, `Comment`, `User`) after a completed
`add_model` is a no-op — the second add returns `False` and leaves the
store unchanged, whether or not its commit would succeed; `UserActivity`
rows have no such dedup, but one pass of the activity loop over tracked
subreddits with pairwise-distinct names appends exactly one row per
tracked subreddit, hence at most one per (user, subreddit) pair per crawl
pass. -/
theorem C6_amended_reingest (insert_ok : Bool) (m : Model) (s : Store)
    (hk : m.keyed = true)
    (u : String) (sm : List (String × SubredditRow))
    (cs ss : String → SummaryStats) (s2 : Store)
    (hnd : (sm.map (fun p => p.2.name)).Nodup) :
    add_model_r insert_ok m (add_model m s).2 = (false, (add_model m s).2)
  ∧ (load_user_activities u sm cs ss s2).activities
      = s2.activities ++ sm.map (activity_row_for u cs ss)
  ∧ ((sm.map (activity_row_for u cs ss)).map
       (fun r => (r.user_name, r.subreddit_name))).Nodup := by
  refine ⟨?_, load_user_activities_spec u cs ss sm s2, ?_⟩
  · by_cases hp : natural_key_present m s
    · rw [show add_model m s = (false, s) from
        add_model_r_of_present true m s hp]
      exact add_model_r_of_present insert_ok m s hp
    · rw [show add_model m s = (true, insert_model m s) from
        (add_model_r_of_absent m s hp).1]
      exact add_model_r_of_present insert_ok m (insert_model m s)
        (natural_key_present_insert_self m s hk)
  · have he : ((sm.map (activity_row_for u cs ss)).map
        (fun r => (r.user_name, r.subreddit_name)))
        = (sm.map (fun p => p.2.name)).map (fun nm => (u, nm)) := by
      simp only [List.map_map]
      rfl
    rw [he]
    exact List.Nodup.map (fun a b hab => by simpa using hab) hnd

theorem C6_amended_reingest_witness :
    (Model.subreddit ⟨"t5_x", "sub_x"⟩).keyed = true
  ∧ ([(("GLOBAL", (⟨"GLOBAL", "GLOBAL"⟩ : SubredditRow))),
      ("askscience", (⟨"t5_2qm4e", "askscience"⟩ : SubredditRow))].map
        (fun p => p.2.name)).Nodup
  ∧ add_model_r false (.subreddit ⟨"t5_x", "sub_x"⟩)
      (add_model (.subreddit ⟨"t5_x", "sub_x"⟩) emptyStore).2
      = (false, (add_model (.subreddit ⟨"t5_x", "sub_x"⟩) emptyStore).2)
  ∧ (load_user_activities "alice"
      [("GLOBAL", ⟨"GLOBAL", "GLOBAL"⟩), ("askscience", ⟨"t5_2qm4e", "askscience"⟩)]
      (fun _ => sampleStats) (fun _ => sampleStats) emptyStore).activities
      = [activity_row_for "alice" (fun _ => sampleStats) (fun _ => sampleStats)
           ("GLOBAL", ⟨"GLOBAL", "GLOBAL"⟩),
         activity_row_for "alice" (fun _ => sampleStats) (fun _ => sampleStats)
           ("askscience", ⟨"t5_2qm4e", "askscience"⟩)] := by
  have h := C6_amended_reingest false (.subreddit ⟨"t5_x", "sub_x"⟩)
    emptyStore rfl "alice"
    [("GLOBAL", ⟨"GLOBAL", "GLOBAL"⟩), ("askscience", ⟨"t5_2qm4e", "askscience"⟩)]
    (fun _ => sampleStats) (fun _ => sampleStats) emptyStore
    (by simp)
  exact ⟨rfl, by simp, h.1, h.2.1⟩

/-! ## Frame lemmas for the loaders -/

theorem add_model_frame_user (r : UserRow) (s : Store) :
    (add_model (.user r) s).2.submissions = s.submissions
  ∧ (add_model (.user r) s).2.comments = s.comments := by
  unfold add_model add_model_r
  split
  · exact ⟨rfl, rfl⟩
  · exact ⟨rfl, rfl⟩

theorem register_author_seen (nm : String) (st : CrawlState)
    (hm : nm ∈ st.users) : register_author (some nm) st = st := by
  simp [register_author, hm]

theorem register_author_new (nm : String) (st : CrawlState)
    (hm : nm ∉ st.users) :
    (register_author (some nm) st).log = st.log ++ [Model.user ⟨nm⟩]
  ∧ (register_author (some nm) st).users = nm :: st.users := by
  simp [register_author, hm, submit_model]

theorem register_author_frame (a : Option String) (st : CrawlState) :
    (register_author a st).session.submissions = st.session.submissions
  ∧ (register_author a st).session.comments = st.session.comments
  ∧ (register_author a st).expanded = st.expanded := by
  cases a with
  | none => exact ⟨rfl, rfl, rfl⟩
  | some nm =>
    by_cases hm : nm ∈ st.users
    · rw [register_author_seen nm st hm]
      exact ⟨rfl, rfl, rfl⟩
    · refine ⟨?_, ?_, ?_⟩ <;>
        simp [register_author, hm, submit_model,
          add_model_frame_user ⟨nm⟩ st.session]

theorem register_author_stub_mem (a : Option String) (st : CrawlState)
    (name : String)
    (h : Model.user ⟨name⟩ ∈ (register_author a st).log) :
    Model.user ⟨name⟩ ∈ st.log ∨ a = some name := by
  cases a with
  | none => exact Or.inl h
  | some nm =>
    by_cases hm : nm ∈ st.users
    · rw [register_author_seen nm st hm] at h
      exact Or.inl h
    · rw [(register_author_new nm st hm).1] at h
      rcases List.mem_append.mp h with h1 | h1
      · exact Or.inl h1
      · right
        have : nm = name := by
          cases List.mem_singleton.mp h1
          rfl
        rw [this]

/-! ## Comment loading (C4) -/

theorem comment_models_append (l1 l2 : List Model) :
    comment_models (l1 ++ l2) = comment_models l1 ++ comment_models l2 := by
  simp [comment_models, List.filterMap_append]

theorem comment_models_register (a : Option String) (st : CrawlState) :
    comment_models ((register_author a st).log) = comment_models st.log := by
  cases a with
  | none => rfl
  | some nm =>
    by_cases hm : nm ∈ st.users
    · rw [register_author_seen nm st hm]
    · rw [(register_author_new nm st hm).1, comment_models_append]
      simp [comment_models]

theorem load_comment_step_log (c : PComment) (rank : Nat) (st : CrawlState) :
    comment_models ((load_comment_step c rank st).log)
      = comment_models st.log
        ++ (if is_deleted_comment c then [] else [comment_row c rank]) := by
  by_cases hd : is_deleted_comment c
  · simp [load_comment_step, hd]
  · simp only [load_comment_step, hd, Bool.false_eq_true, if_false,
      submit_model]
    rw [comment_models_append, comment_models_register]
    simp [comment_models]

theorem load_comments_from_rows (cs : List PComment) :
    ∀ (rank : Nat) (st : CrawlState),
      comment_models ((load_comments_from cs rank st).log)
        = comment_models st.log
          ++ ((enum_from rank cs).filter
                (fun p => !(is_deleted_comment p.2))).map
              (fun p => comment_row p.2 p.1) := by
  induction cs with
  | nil => intro rank st; simp [load_comments_from, enum_from]
  | cons c rest ih =>
    intro rank st
    show comment_models
        ((load_comments_from rest (rank + 1) (load_comment_step c rank st)).log) = _
    rw [ih (rank + 1) (load_comment_step c rank st), load_comment_step_log]
    by_cases hd : is_deleted_comment c
    · simp [enum_from, List.filter_cons, hd]
    · simp [enum_from, List.filter_cons, hd]

theorem load_comment_step_stub_mem (c : PComment) (rank : Nat)
    (st : CrawlState) (name : String)
    (h : Model.user ⟨name⟩ ∈ (load_comment_step c rank st).log) :
    Model.user ⟨name⟩ ∈ st.log
    ∨ (is_deleted_comment c = false ∧ c.author = some name) := by
  by_cases hd : is_deleted_comment c
  · left; simpa [load_comment_step, hd] using h
  · simp only [load_comment_step, hd, Bool.false_eq_true, if_false,
      submit_model] at h
    rcases List.mem_append.mp h with h1 | h1
    · rcases register_author_stub_mem c.author st name h1 with h2 | h2
      · exact Or.inl h2
      · exact Or.inr ⟨by simpa using hd, h2⟩
    · cases List.mem_singleton.mp h1

theorem load_comments_from_stub_mem (cs : List PComment) :
    ∀ (rank : Nat) (st : CrawlState) (name : String),
      Model.user ⟨name⟩ ∈ (load_comments_from cs rank st).log →
      Model.user ⟨name⟩ ∈ st.log
      ∨ ∃ c ∈ cs, is_deleted_comment c = false ∧ c.author = some name := by
  induction cs with
  | nil => intro rank st name h; exact Or.inl h
  | cons c rest ih =>
    intro rank st name h
    rcases ih (rank + 1) (load_comment_step c rank st) name h with h1 | h1
    · rcases load_comment_step_stub_mem c rank st name h1 with h2 | h2
      · exact Or.inl h2
      · exact Or.inr ⟨c, List.mem_cons_self _ _, h2⟩
    · rcases h1 with ⟨c2, hc2, hp⟩
      exact Or.inr ⟨c2, List.mem_cons_of_mem _ hc2, hp⟩

/-- C4: the comment loader enumerates the given top-level comments in
order, assigning ranks `1..N` by position before any filtering; the
`Comment` models submitted to the persistence layer are exactly those of
the non-deleted comments, each carrying its enumeration rank (so gaps
left by skipped deleted comments are preserved); and every `User` stub
submitted during the run names the author of some non-deleted comment —
deleted comments contribute neither a row nor a stub. -/
theorem C4_load_comments (cs : List PComment) (st : CrawlState) :
    comment_models ((load_comments cs st).log)
      = comment_models st.log
        ++ ((enum_from 1 cs).filter
              (fun p => !(is_deleted_comment p.2))).map
            (fun p => comment_row p.2 p.1)
  ∧ ∀ name, Model.user ⟨name⟩ ∈ (load_comments cs st).log →
      Model.user ⟨name⟩ ∈ st.log
      ∨ ∃ c ∈ cs, is_deleted_comment c = false ∧ c.author = some name :=
  ⟨load_comments_from_rows cs 1 st,
   fun name h => load_comments_from_stub_mem cs 1 st name h⟩

theorem C4_load_comments_witness :
    comment_models ((load_comments [c_mid, c_del] st0).log)
      = comment_models st0.log ++ [comment_row c_mid 1]
  ∧ (Model.user ⟨"bob"⟩ ∈ (load_comments [c_mid, c_del] st0).log
     ∧ (Model.user ⟨"bob"⟩ ∈ st0.log
        ∨ ∃ c ∈ [c_mid, c_del],
            is_deleted_comment c = false ∧ c.author = some "bob")) := by
  have h := C4_load_comments [c_mid, c_del] st0
  have hmem : Model.user ⟨"bob"⟩ ∈ (load_comments [c_mid, c_del] st0).log := by
    decide
  exact ⟨h.1, hmem, h.2 "bob" hmem⟩

/-! ## User-stub uniqueness (C7) -/

theorem stub_count_append (name : String) (l1 l2 : List Model) :
    stub_count name (l1 ++ l2) = stub_count name l1 + stub_count name l2 := by
  simp [stub_count, List.countP_append]

theorem stub_count_single_user (name nm : String) :
    stub_count name [Model.user ⟨nm⟩] = if nm = name then 1 else 0 := by
  by_cases h : nm = name <;>
    simp [stub_count, List.countP_cons, List.countP_nil, h]

theorem stub_count_single_nonuser (name : String) (m : Model)
    (h : ∀ u, m ≠ .user u) : stub_count name [m] = 0 := by
  have : (m == Model.user ⟨name⟩) = false := by
    cases m <;> simp_all
  simp [stub_count, List.countP_cons, List.countP_nil, this]

theorem stub_inv_register (a : Option String) (st : CrawlState)
    (h : stub_inv st) : stub_inv (register_author a st) := by
  cases a with
  | none => exact h
  | some nm =>
    by_cases hm : nm ∈ st.users
    · rw [register_author_seen nm st hm]; exact h
    · intro name
      rw [(register_author_new nm st hm).1, stub_count_append,
        stub_count_single_user]
      have husers : (register_author (some nm) st).users = nm :: st.users :=
        (register_author_new nm st hm).2
      by_cases hn : nm = name
      · subst hn
        have hc0 : stub_count nm st.log = 0 := by
          rcases Nat.eq_zero_or_pos (stub_count nm st.log) with h0 | h0
          · exact h0
          · exact absurd ((h nm).2 h0) hm
        rw [hc0]
        simp [husers]
      · rw [if_neg hn]
        refine ⟨by simpa using (h name).1, ?_⟩
        intro hge
        rw [husers]
        exact List.mem_cons_of_mem _ ((h name).2 (by simpa using hge))

theorem stub_inv_submit_nonuser (m : Model) (hm : ∀ u, m ≠ .user u)
    (st : CrawlState) (h : stub_inv st) :
    stub_inv (submit_model m st).2 := by
  intro name
  show stub_count name (st.log ++ [m]) ≤ 1
    ∧ (1 ≤ stub_count name (st.log ++ [m]) → name ∈ st.users)
  rw [stub_count_append, stub_count_single_nonuser name m hm]
  simpa using h name

theorem stub_inv_load_comment_step (c : PComment) (rank : Nat)
    (st : CrawlState) (h : stub_inv st) :
    stub_inv (load_comment_step c rank st) := by
  by_cases hd : is_deleted_comment c
  · simpa [load_comment_step, hd] using h
  · simp only [load_comment_step, hd, Bool.false_eq_true, if_false]
    exact stub_inv_submit_nonuser _ (fun u => by simp) _
      (stub_inv_register c.author st h)

theorem stub_inv_load_comments_from (cs : List PComment) :
    ∀ (rank : Nat) (st : CrawlState), stub_inv st →
      stub_inv (load_comments_from cs rank st) := by
  induction cs with
  | nil => intro rank st h; exact h
  | cons c rest ih =>
    intro rank st h
    exact ih (rank + 1) _ (stub_inv_load_comment_step c rank st h)

theorem stub_inv_mark_expanded (sub : PSubmission) (st : CrawlState)
    (h : stub_inv st) : stub_inv (mark_expanded sub st) := h

theorem stub_inv_after_add (sub : PSubmission) (r : Bool × CrawlState)
    (h : stub_inv r.2) : stub_inv (after_add sub r) := by
  unfold after_add
  by_cases h1 : (!r.1) = true
  · rw [if_pos h1]; exact h
  · rw [if_neg h1]
    by_cases h2 : (!sub.expand_ok) = true
    · rw [if_pos h2]; exact stub_inv_mark_expanded sub r.2 h
    · rw [if_neg h2]
      exact stub_inv_load_comments_from sub.comments 1 _
        (stub_inv_mark_expanded sub r.2 h)

theorem stub_inv_process_submission (sub : PSubmission) (st : CrawlState)
    (h : stub_inv st) : stub_inv (process_submission sub st) := by
  unfold process_submission
  by_cases h1 : (!sub.is_self) = true
  · rw [if_pos h1]; exact h
  · rw [if_neg h1]
    exact stub_inv_after_add sub _
      (stub_inv_submit_nonuser _ (fun u => by simp) _
        (stub_inv_register sub.author st h))

theorem stub_inv_fold_submissions (subs : List PSubmission) :
    ∀ (st : CrawlState), stub_inv st →
      stub_inv (subs.foldl (fun acc sub => process_submission sub acc) st) := by
  induction subs with
  | nil => intro st h; exact h
  | cons sub rest ih =>
    intro st h
    exact ih _ (stub_inv_process_submission sub st h)

theorem stub_inv_load_subreddit (search : String → List PSubmission)
    (st : CrawlState) (h : stub_inv st) :
    stub_inv (load_subreddit search st) := by
  unfold load_subreddit
  generalize flairs = fl
  induction fl generalizing st with
  | nil => exact h
  | cons f rest ih =>
    exact ih _ (stub_inv_fold_submissions (search f) st h)

/-- C7: registering a not-yet-seen non-null author submits exactly one
name-only `User` stub and adds the name to the seen set; a name already in
the set never triggers a stub; and over a whole `load_subreddit` crawl the
stub invariant is preserved, so each name is submitted as a stub at most
once in the entire log. -/
theorem C7_user_stub_uniqueness (search : String → List PSubmission)
    (st : CrawlState) (hinv : stub_inv st) :
    stub_inv (load_subreddit search st)
  ∧ (∀ (name : String) (st2 : CrawlState), name ∉ st2.users →
      (register_author (some name) st2).log = st2.log ++ [Model.user ⟨name⟩]
      ∧ (register_author (some name) st2).users = name :: st2.users)
  ∧ (∀ (name : String) (st2 : CrawlState), name ∈ st2.users →
      register_author (some name) st2 = st2) :=
  ⟨stub_inv_load_subreddit search st hinv,
   fun name st2 hm => register_author_new name st2 hm,
   fun name st2 hm => register_author_seen name st2 hm⟩

theorem C7_user_stub_uniqueness_witness :
    stub_inv st0
  ∧ (stub_inv (load_subreddit sample_search st0)
     ∧ (∀ (name : String) (st2 : CrawlState), name ∉ st2.users →
         (register_author (some name) st2).log
           = st2.log ++ [Model.user ⟨name⟩]
         ∧ (register_author (some name) st2).users = name :: st2.users)
     ∧ (∀ (name : String) (st2 : CrawlState), name ∈ st2.users →
         register_author (some name) st2 = st2)) := by
  have hinv : stub_inv st0 := by
    intro name
    refine ⟨?_, ?_⟩ <;> simp [stub_count, st0]
  exact ⟨hinv, C7_user_stub_uniqueness sample_search st0 hinv⟩

/-! ## Duplicate submissions and non-self posts (C9, C10) -/

theorem process_submission_dup (sub : PSubmission) (st : CrawlState)
    (hself : sub.is_self = true)
    (hdup : natural_key_present (.submission (submission_row sub)) st.session) :
    process_submission sub st
      = { register_author sub.author st with
          log := (register_author sub.author st).log
                   ++ [Model.submission (submission_row sub)] } := by
  have hframe := register_author_frame sub.author st
  have hdup1 : natural_key_present (.submission (submission_row sub))
      (register_author sub.author st).session := by
    simp only [natural_key_present] at hdup ⊢
    rw [hframe.1]
    exact hdup
  have hadd : add_model (.submission (submission_row sub))
      (register_author sub.author st).session
      = (false, (register_author sub.author st).session) :=
    add_model_r_of_present true _ _ hdup1
  unfold process_submission
  rw [hself]
  show after_add sub (submit_model _ (register_author sub.author st)) = _
  unfold after_add submit_model
  rw [hadd]
  rfl

/-- C9: a self submission whose `add_model` returns `False` (already
stored) is not processed further — its comment tree is never expanded, the
stored comments and submissions are untouched, no `Comment` model is
submitted, and the only possible `User` stub submitted is the submission
author's own (registered before the dedup check), never one of its
comment authors. -/
theorem C9_duplicate_submission_skipped (sub : PSubmission) (st : CrawlState)
    (hself : sub.is_self = true)
    (hdup : natural_key_present (.submission (submission_row sub)) st.session) :
    (process_submission sub st).expanded = st.expanded
  ∧ (process_submission sub st).session.comments = st.session.comments
  ∧ (process_submission sub st).session.submissions = st.session.submissions
  ∧ comment_models ((process_submission sub st).log) = comment_models st.log
  ∧ ∀ name, Model.user ⟨name⟩ ∈ (process_submission sub st).log →
      Model.user ⟨name⟩ ∈ st.log ∨ sub.author = some name := by
  have hframe := register_author_frame sub.author st
  rw [process_submission_dup sub st hself hdup]
  refine ⟨hframe.2.2, hframe.2.1, hframe.1, ?_, ?_⟩
  · show comment_models ((register_author sub.author st).log ++ _)
      = comment_models st.log
    rw [comment_models_append, comment_models_register]
    simp [comment_models]
  · intro name h
    rcases List.mem_append.mp h with h1 | h1
    · exact register_author_stub_mem sub.author st name h1
    · cases List.mem_singleton.mp h1

theorem C9_duplicate_submission_skipped_witness :
    (sample_sub.is_self = true
     ∧ natural_key_present (.submission (submission_row sample_sub))
         st_dup.session)
  ∧ ((process_submission sample_sub st_dup).expanded = st_dup.expanded
     ∧ (process_submission sample_sub st_dup).session.comments
         = st_dup.session.comments
     ∧ (process_submission sample_sub st_dup).session.submissions
         = st_dup.session.submissions
     ∧ comment_models ((process_submission sample_sub st_dup).log)
         = comment_models st_dup.log
     ∧ ∀ name,
         Model.user ⟨name⟩ ∈ (process_submission sample_sub st_dup).log →
         Model.user ⟨name⟩ ∈ st_dup.log ∨ sample_sub.author = some name) := by
  have hdup : natural_key_present (.submission (submission_row sample_sub))
      st_dup.session :=
    ⟨submission_row sample_sub, by simp [st_dup, emptyStore], rfl⟩
  exact ⟨⟨rfl, hdup⟩,
    C9_duplicate_submission_skipped sample_sub st_dup rfl hdup⟩

/-- C10: a submission that is not a self-post is skipped entirely — the
loop body leaves the crawl state (seen users, store, submission log,
expansions) exactly as it was. -/
theorem C10_non_self_skipped (sub : PSubmission) (st : CrawlState)
    (h : sub.is_self = false) :
    process_submission sub st = st := by
  unfold process_submission
  rw [h]
  rfl

theorem C10_non_self_skipped_witness :
    sample_link.is_self = false
  ∧ process_submission sample_link st0 = st0 :=
  ⟨rfl, C10_non_self_skipped sample_link st0 rfl⟩

end Scraper
